import Mathlib

/-!
Verification development for the `ihear` macOS menu-bar application
(`ihear/menubar.py`): the hotkey parser/formatter, the two hotkey
monitors, and the recording/transcription controller state machine.

Strings are modelled as `List Char` internally (with `String` wrappers
mirroring the Python signatures).  Python's per-character `str.lower` /
`str.upper` are modelled by `Char.toLower` / `Char.toUpper`: exact on
ASCII, the identity elsewhere — Python's Unicode case mapping (e.g.
upper of U+00DF is "SS", lower of U+0130 is two characters) is not
modelled, so every theorem whose truth depends on case mapping carries
an ASCII hypothesis scoping it to where the embedding is exact.
`str.strip` is modelled exactly: `isPySpace` is the complete set of
code points Python's `str.isspace()` accepts.  `str.isprintable` is
exact on ASCII and on the whitespace/separator characters; other
non-ASCII format or unassigned characters are approximated as
printable.
-/

/-- The whitespace characters removed by `str.strip()`: exactly the code
points for which Python's `str.isspace()` is true (U+0009–U+000D,
U+001C–U+001F, space, NEL, NBSP, U+1680, U+2000–U+200A, U+2028, U+2029,
U+202F, U+205F, U+3000). -/
def isPySpace (c : Char) : Bool :=
  decide ((9 ≤ c.toNat ∧ c.toNat ≤ 13) ∨ (28 ≤ c.toNat ∧ c.toNat ≤ 32) ∨
    c.toNat = 133 ∨ c.toNat = 160 ∨ c.toNat = 5760 ∨
    (8192 ≤ c.toNat ∧ c.toNat ≤ 8202) ∨ c.toNat = 8232 ∨ c.toNat = 8233 ∨
    c.toNat = 8239 ∨ c.toNat = 8287 ∨ c.toNat = 12288)

/-- Model of `str.isprintable` for a single character: exact on ASCII
(printable iff U+0020–U+007E) and on the whitespace/separator set;
other characters above U+00A0 are approximated as printable. -/
def pyIsPrintable (c : Char) : Bool :=
  decide (32 ≤ c.toNat ∧ c.toNat ≤ 126) || (decide (160 < c.toNat) && !isPySpace c)

/-- Model of `str.strip()`: drop leading and trailing whitespace. -/
def pyStrip (l : List Char) : List Char :=
  (l.dropWhile isPySpace).rdropWhile isPySpace

/-- Model of `str.split(sep)` for a one-character separator: keeps empty
chunks, so `pySplit '+' "+".data = [[], []]`. -/
def pySplit (sep : Char) : List Char → List (List Char)
  | [] => [[]]
  | c :: cs =>
    if c = sep then [] :: pySplit sep cs
    else (c :: (pySplit sep cs).headD []) :: (pySplit sep cs).tail

/-- Helper for `pyTitle`: the flag records whether the previous character
was alphabetic (i.e. we are inside a word). -/
def pyTitleAux : Bool → List Char → List Char
  | _, [] => []
  | prev, c :: cs =>
    if c.isAlpha then
      (if prev then c.toLower else c.toUpper) :: pyTitleAux true cs
    else c :: pyTitleAux false cs

/-- Model of `str.title()`: capitalise the first letter of each word. -/
def pyTitle (l : List Char) : List Char := pyTitleAux false l

/-- The `MODIFIER_ALIASES` dict from `menubar.py` as a lookup function. -/
def MODIFIER_ALIASES (k : List Char) : Option (List Char) :=
  if k = "cmd".data then some "command".data
  else if k = "⌘".data then some "command".data
  else if k = "command".data then some "command".data
  else if k = "control".data then some "control".data
  else if k = "ctrl".data then some "control".data
  else if k = "^".data then some "control".data
  else if k = "option".data then some "option".data
  else if k = "alt".data then some "option".data
  else if k = "⌥".data then some "option".data
  else if k = "shift".data then some "shift".data
  else if k = "⇧".data then some "shift".data
  else none

/-- The fixed modifier priority order from `menubar.py`. -/
def MODIFIER_ORDER : List (List Char) :=
  ["control".data, "option".data, "shift".data, "command".data]

/-- The `KEY_ALIASES` dict from `menubar.py` as a lookup function. -/
def KEY_ALIASES (k : List Char) : Option (List Char) :=
  if k = "enter".data then some "return".data
  else if k = "return".data then some "return".data
  else if k = "space".data then some "space".data
  else if k = " ".data then some "space".data
  else if k = "spacebar".data then some "space".data
  else if k = "tab".data then some "tab".data
  else if k = "escape".data then some "escape".data
  else if k = "esc".data then some "escape".data
  else if k = "delete".data then some "delete".data
  else if k = "backspace".data then some "delete".data
  else none

/-- The `MODIFIER_DISPLAY` dict from `menubar.py` as a lookup function. -/
def MODIFIER_DISPLAY (k : List Char) : Option (List Char) :=
  if k = "command".data then some "⌘".data
  else if k = "shift".data then some "⇧".data
  else if k = "option".data then some "⌥".data
  else if k = "control".data then some "⌃".data
  else none

/-- The `KEY_DISPLAY` dict from `menubar.py` as a lookup function. -/
def KEY_DISPLAY (k : List Char) : Option (List Char) :=
  if k = "space".data then some "Space".data
  else if k = "return".data then some "Return".data
  else if k = "tab".data then some "Tab".data
  else if k = "escape".data then some "Esc".data
  else if k = "delete".data then some "Delete".data
  else none

/-- The `for part in parts` loop of `normalize_hotkey`, carrying the
accumulated modifier list and the optional primary key. -/
def parseParts : List (List Char) → List (List Char) → Option (List Char) →
    Except String (List (List Char) × List Char)
  | [], _, none => .error "A shortcut must include a primary key."
  | [], mods, some k => .ok (mods, k)
  | p :: rest, mods, key =>
    let alias0 := (MODIFIER_ALIASES p).getD p
    if alias0 ∈ MODIFIER_ORDER then
      parseParts rest (if alias0 ∈ mods then mods else mods ++ [alias0]) key
    else
      match key with
      | some _ => .error "Only one non-modifier key can be used in a shortcut."
      | none =>
        let mapped := (KEY_ALIASES alias0).getD alias0
        if mapped.length = 1 ∧ mapped.all pyIsPrintable = true then
          parseParts rest mods (some mapped)
        else if (KEY_DISPLAY mapped).isSome then
          parseParts rest mods (some mapped)
        else .error ("Unsupported key \x27" ++ String.mk p ++ "\x27 in shortcut.")

/-- The list comprehension building `parts` in `normalize_hotkey`:
split on `+`, strip each piece, drop empty pieces, lower-case. -/
def partsOf (lowered : List Char) : List (List Char) :=
  (pySplit '+' lowered).filterMap fun part =>
    if pyStrip part = [] then none
    else some ((pyStrip part).map Char.toLower)

/-- `normalize_hotkey` from `menubar.py` on character lists. -/
def normalizeChars (raw : List Char) : Except String (List Char) :=
  let text := pyStrip raw
  if text = [] then .error "Hotkey cannot be empty."
  else
    let lowered := text.map Char.toLower
    if lowered = "fn".data then .ok "fn".data
    else
      let parts := partsOf lowered
      if parts = [] then .error "Hotkey cannot be empty."
      else if "fn".data ∈ parts then
        if parts.length > 1 then .error "The fn key cannot be combined with other keys."
        else .ok "fn".data
      else
        match parseParts parts [] none with
        | .error e => .error e
        | .ok (mods, key) =>
          .ok (List.intercalate ['+']
            (MODIFIER_ORDER.filter (fun m => mods.contains m) ++ [key]))

/-- `format_hotkey` from `menubar.py` on character lists. -/
def formatChars (hotkey : List Char) : List Char :=
  if hotkey = "fn".data then "fn".data
  else
    let parts := pySplit '+' hotkey
    let key := parts.getLastD []
    let modifiers := parts.dropLast
    let display := (modifiers.map fun m => (MODIFIER_DISPLAY m).getD (pyTitle m)).flatten
    match KEY_DISPLAY key with
    | some d => display ++ d
    | none =>
      if key.length = 1 then display ++ key.map Char.toUpper
      else display ++ pyTitle key

/-- `normalize_hotkey(raw)`: canonical representation of a hotkey string,
or the `ValueError` message. -/
def normalize_hotkey (raw : String) : Except String String :=
  (normalizeChars raw.data).map String.mk

/-- `format_hotkey(hotkey)`: user-friendly rendering of a canonical hotkey. -/
def format_hotkey (hotkey : String) : String :=
  String.mk (formatChars hotkey.data)

/-! ## FnHotkeyMonitor (single-key monitor)

The `handle` closure of `FnHotkeyMonitor.start` reacts to the
level-triggered fn flag.  Time is modelled by `ℚ` (Python uses
`time.time()` floats; only order and subtraction matter here). -/

/-- The mutable state of `FnHotkeyMonitor`: the `_pressed` flag and the
`_last_press_time` timestamp. -/
structure FnMonState where
  pressed : Bool
  lastPressTime : ℚ
  deriving DecidableEq

/-- Which callback (if any) a monitor event invokes. -/
inductive FnOut
  | press
  | release
  | doubleTap
  | idle
  deriving DecidableEq

/-- The `handle(event)` closure of `FnHotkeyMonitor.start`:
`hasDoubleTap` records whether an `on_double_tap` handler is registered,
`isPressed` is the level of the fn modifier flag in the event, and `now`
is `time.time()` at delivery. -/
def fnHandle (window : ℚ) (hasDoubleTap : Bool) (s : FnMonState)
    (isPressed : Bool) (now : ℚ) : FnMonState × FnOut :=
  if isPressed && !s.pressed then
    if hasDoubleTap && decide (now - s.lastPressTime < window) then
      ({ pressed := true, lastPressTime := 0 }, .doubleTap)
    else
      ({ pressed := true, lastPressTime := now }, .press)
  else if !isPressed && s.pressed then
    ({ s with pressed := false }, .release)
  else (s, .idle)

/-! ## KeyComboHotkeyMonitor -/

/-- Configuration of `KeyComboHotkeyMonitor` after `__init__`:
the required modifier bitmask, and either an expected key code (special
keys) or an expected character (printable keys, already lower-case). -/
structure ComboCfg where
  modifierMask : Nat
  expectedKeyCode : Option Nat
  expectedChar : List Char
  deriving DecidableEq

/-- The three kinds of NSEvent the combo monitor subscribes to, with the
fields the handlers read (`keyCode()`, `charactersIgnoringModifiers()`,
`modifierFlags()`). -/
inductive ComboEvent
  | keyDown (keyCode : Nat) (chars : List Char) (flags : Nat)
  | keyUp (keyCode : Nat) (chars : List Char) (flags : Nat)
  | flagsChanged (flags : Nat)
  deriving DecidableEq

/-- Which callback a combo-monitor event invokes. -/
inductive ComboOut
  | press
  | release
  deriving DecidableEq

/-- `KeyComboHotkeyMonitor._key_matches`. -/
def keyMatches (cfg : ComboCfg) (keyCode : Nat) (chars : List Char) : Bool :=
  match cfg.expectedKeyCode with
  | some code => keyCode == code
  | none => !chars.isEmpty && (chars.map Char.toLower == cfg.expectedChar)

/-- `KeyComboHotkeyMonitor._modifiers_active`. -/
def modifiersActive (cfg : ComboCfg) (flags : Nat) : Bool :=
  cfg.modifierMask == 0 || (Nat.land flags cfg.modifierMask == cfg.modifierMask)

/-- The three event handlers registered by `KeyComboHotkeyMonitor.start`,
as one step function on the `_pressed` flag. -/
def comboStep (cfg : ComboCfg) (pressed : Bool) :
    ComboEvent → Bool × Option ComboOut
  | .keyDown keyCode chars flags =>
    if (modifiersActive cfg flags && keyMatches cfg keyCode chars) && !pressed then
      (true, some .press)
    else (pressed, none)
  | .keyUp keyCode chars _flags =>
    if pressed && keyMatches cfg keyCode chars then (false, some .release)
    else (pressed, none)
  | .flagsChanged flags =>
    if pressed && !modifiersActive cfg flags then (false, some .release)
    else (pressed, none)

/-- The release condition as the specification states it: a key-up event
whose key matches the configured primary key (by key code for special
keys, by case-insensitive character otherwise), or a modifier-state
change whose active flags no longer contain the full required mask. -/
def specReleaseEvent (cfg : ComboCfg) : ComboEvent → Bool
  | .keyDown _ _ _ => false
  | .keyUp keyCode chars _ =>
    (match cfg.expectedKeyCode with
     | some code => keyCode == code
     | none => !chars.isEmpty && (chars.map Char.toLower == cfg.expectedChar))
  | .flagsChanged flags =>
    !(cfg.modifierMask == 0 || (Nat.land flags cfg.modifierMask == cfg.modifierMask))

/-! ## AudioRecorder -/

/-- The recorder's mutable state: whether an input stream is open, and
how many audio chunks the stream callback has appended to `_frames`. -/
structure RecorderState where
  streamActive : Bool
  frames : Nat
  deriving DecidableEq

/-- `AudioRecorder.start`: a no-op when a stream is already open,
otherwise clears `_frames` and opens a stream.  (Creation of the input
stream is modelled as succeeding: the audio device is external.) -/
def recorderStart (r : RecorderState) : RecorderState :=
  if r.streamActive then r else { streamActive := true, frames := 0 }

/-- `AudioRecorder.stop`: raises when no stream is open; otherwise closes
the stream and then raises when no audio was captured, or returns the
temporary WAV file (modelled abstractly). -/
def recorderStop (r : RecorderState) : RecorderState × Except String Unit :=
  if r.streamActive then
    if r.frames = 0 then
      ({ streamActive := false, frames := r.frames }, .error "No audio was captured.")
    else
      ({ streamActive := false, frames := r.frames }, .ok ())
  else (r, .error "Recording is not active.")

/-- The stream callback `AudioRecorder._callback`: appends a chunk while
the stream is running. -/
def recorderChunk (r : RecorderState) : RecorderState :=
  if r.streamActive then { r with frames := r.frames + 1 } else r

/-! ## IhearMenuApp controller -/

/-- Externally visible effects of a controller step.  `startCapture` and
`dispatchJob` mark the controller invoking `_start_recording`'s
`recorder.start()` and spawning the `_process_audio` worker thread;
`showIndicator`/`hideIndicator` stand for the indicator and waveform
feedback pair; `deleteTempFile` is `audio_path.unlink(missing_ok=True)`. -/
inductive Act
  | startCapture
  | dispatchJob
  | deleteTempFile
  | showIndicator
  | hideIndicator
  | notify (title message : String)
  | copyClipboard (text : List Char)
  | pasteKeystroke
  deriving DecidableEq

/-- The controller state of `IhearMenuApp`: the `_recording`,
`_continuous_mode` and `_processing` flags, the recorder, the status-item
text, and the configuration the handlers read (`insert_destination`,
with `none` modelling Python `None`, and the formatted hotkey). -/
structure AppState where
  recording : Bool
  continuousMode : Bool
  processing : Bool
  recorder : RecorderState
  status : String
  insertDestination : Option (List Char)
  hotkeyDisplay : String
  deriving DecidableEq

/-- `IhearMenuApp._start_recording`. -/
def startRecording (s : AppState) : AppState × List Act :=
  let s2 := { s with recorder := recorderStart s.recorder, recording := true }
  if s.continuousMode then
    ({ s2 with status := "Recording… Tap " ++ s.hotkeyDisplay ++ " to stop." },
     [Act.startCapture, Act.showIndicator])
  else
    ({ s2 with status := "Recording… Release " ++ s.hotkeyDisplay ++ " to finish." },
     [Act.startCapture, Act.showIndicator])

/-- `IhearMenuApp._stop_recording`: on a capture error only the status is
updated and the indicator hidden (`_recording` is left as it was and no
job is dispatched); on success the state moves to processing and the
worker thread is spawned. -/
def stopRecording (s : AppState) : AppState × List Act :=
  match recorderStop s.recorder with
  | (r2, .error e) =>
    ({ s with recorder := r2, status := "Recording error: " ++ e }, [Act.hideIndicator])
  | (r2, .ok _) =>
    ({ s with recorder := r2, recording := false, processing := true,
              status := "Transcribing…" },
     [Act.hideIndicator, Act.dispatchJob])

/-- `IhearMenuApp._on_hotkey_press`. -/
def onHotkeyPress (s : AppState) : AppState × List Act :=
  if s.processing then (s, [])
  else if s.continuousMode then
    if s.recording then stopRecording s else startRecording s
  else
    if !s.recording then startRecording s else (s, [])

/-- `IhearMenuApp._on_hotkey_release`. -/
def onHotkeyRelease (s : AppState) : AppState × List Act :=
  if s.continuousMode then (s, [])
  else if s.recording then stopRecording s else (s, [])

/-- `IhearMenuApp._on_double_tap`. -/
def onDoubleTap (s : AppState) : AppState × List Act :=
  if s.processing then (s, [])
  else
    let s2 := { s with continuousMode := !s.continuousMode }
    if s2.continuousMode then
      ({ s2 with status := "Continuous mode: Tap fn to start/stop recording" },
       [Act.notify "Continuous Mode" "Tap fn to toggle recording"])
    else
      let stopped := if s2.recording then stopRecording s2 else (s2, [])
      ({ stopped.1 with status := "Hold " ++ stopped.1.hotkeyDisplay ++ " to record." },
       stopped.2 ++ [Act.notify "Normal Mode" "Hold fn to record"])

/-- Python's `insert_destination or "paste"`: `None` and the empty
string are falsy, anything else is kept. -/
def insertDestinationOrDefault (insertDestination : Option (List Char)) : List Char :=
  match insertDestination with
  | none => "paste".data
  | some d => if d = [] then "paste".data else d

/-- `IhearMenuApp._apply_transcript`: always copy to the clipboard, then
paste only when the configured destination (defaulted, lower-cased) is
"paste"; "clipboard" and any unknown value add nothing further. -/
def applyTranscript (insertDestination : Option (List Char)) (text : List Char) :
    List Act :=
  let destination := (insertDestinationOrDefault insertDestination).map Char.toLower
  Act.copyClipboard text ::
    (if destination = "paste".data then [Act.pasteKeystroke]
     else if destination = "clipboard".data then []
     else [])

/-- `IhearMenuApp._process_audio` run to completion with the given
backend result: the success path applies the transcript and notifies,
the failure path notifies the error, and the `finally` block always
clears `_processing` and deletes the temporary audio file. -/
def processAudio (s : AppState) (result : Except String (List Char)) :
    AppState × List Act :=
  match result with
  | .ok transcript =>
    ({ s with processing := false,
              status := "Hold " ++ s.hotkeyDisplay ++ " to record." },
     applyTranscript s.insertDestination (pyStrip transcript) ++
       [Act.notify "Transcription complete" "Text inserted from ihear.",
        Act.deleteTempFile])
  | .error e =>
    ({ s with processing := false, status := "Transcription failed: " ++ e },
     [Act.notify "Transcription failed" e, Act.deleteTempFile])

/-- The serialized events the controller consumes: the three hotkey
callbacks, an audio chunk delivered by the stream callback, and
completion of the transcription worker with the backend's result. -/
inductive Ev
  | press
  | release
  | doubleTap
  | chunk
  | jobDone (result : Except String (List Char))

/-- One serialized controller step. -/
def step (s : AppState) : Ev → AppState × List Act
  | .press => onHotkeyPress s
  | .release => onHotkeyRelease s
  | .doubleTap => onDoubleTap s
  | .chunk => ({ s with recorder := recorderChunk s.recorder }, [])
  | .jobDone r => processAudio s r

/-- The controller state after `IhearMenuApp.__init__`. -/
def initState (hotkeyDisplay : String) (insertDestination : Option (List Char)) :
    AppState :=
  { recording := false, continuousMode := false, processing := false,
    recorder := { streamActive := false, frames := 0 },
    status := "Hold " ++ hotkeyDisplay ++ " to record.",
    insertDestination := insertDestination, hotkeyDisplay := hotkeyDisplay }

/-- Run a serial event trace from a state. -/
def runEvents (s : AppState) (evs : List Ev) : AppState :=
  evs.foldl (fun s e => (step s e).1) s

/-- The controller invariant: an open input stream implies the recording
flag, and the recording and processing flags are never both set. -/
def CtrlInv (s : AppState) : Prop :=
  (s.recorder.streamActive = true → s.recording = true) ∧
    ¬(s.recording = true ∧ s.processing = true)

/-- Recognises the release of the temporary audio file. -/
def isDeleteTempFile : Act → Bool
  | Act.deleteTempFile => true
  | _ => false

/-- The primary keys with a friendly display name (the keys of
`KEY_DISPLAY`, equivalently the values of `KEY_ALIASES`). -/
def NAMED_KEYS : List (List Char) :=
  ["space".data, "return".data, "tab".data, "escape".data, "delete".data]

/-- Shape of every element of the `parts` list inside `normalize_hotkey`:
nonempty, free of the separator, lower-cased and stripped. -/
def PartOK (p : List Char) : Prop :=
  p ≠ [] ∧ '+' ∉ p ∧ p.map Char.toLower = p ∧ pyStrip p = p

/-- Shape of the primary key produced by the `normalize_hotkey` loop:
either a named key, or a single printable stripped lower-case character
that is not a modifier alias. -/
def KeyOK (k : List Char) : Prop :=
  k ∈ NAMED_KEYS ∨
    ∃ c, k = [c] ∧ pyIsPrintable c = true ∧ MODIFIER_ALIASES [c] = none ∧ PartOK [c]

example : normalize_hotkey "cmd+shift+space" = Except.ok "shift+command+space" := by rfl

example : format_hotkey "shift+command+space" = "⇧⌘Space" := by rfl

example : normalize_hotkey "cmd+a" = Except.ok "command+a" := by rfl

example : format_hotkey "command+a" = "⌘A" := by rfl

example : normalize_hotkey "⌘A" = Except.error "Unsupported key \x27⌘a\x27 in shortcut." := by rfl

example : normalize_hotkey "fn" = Except.ok "fn" := by rfl

example : normalize_hotkey " FN " = Except.ok "fn" := by rfl

example : normalize_hotkey "fn+shift" = Except.error "The fn key cannot be combined with other keys." := by rfl

example : normalize_hotkey "q" = Except.ok "q" := by rfl

example : format_hotkey "q" = "Q" := by rfl

example : normalize_hotkey "Q" = Except.ok "q" := by rfl

example : normalize_hotkey "esc" = Except.ok "escape" := by rfl

example : format_hotkey "escape" = "Esc" := by rfl

example : normalize_hotkey "Esc" = Except.ok "escape" := by rfl

/-! ## Invariant machinery for the controller -/

lemma ctrlInv_initState (h : String) (d : Option (List Char)) :
    CtrlInv (initState h d) := by
  constructor <;> simp [CtrlInv, initState]

lemma ctrlInv_step (s : AppState) (e : Ev) (h : CtrlInv s) : CtrlInv (step s e).1 := by
  obtain ⟨h1, h2⟩ := h
  rcases s with ⟨rec, cont, proc, ⟨sa, fr⟩, st, dest, disp⟩
  rcases e with _ | _ | _ | _ | r <;>
    cases rec <;> cases cont <;> cases proc <;> cases sa <;> (try cases r) <;>
    cases fr <;>
    simp_all [CtrlInv, step, onHotkeyPress, onHotkeyRelease, onDoubleTap,
      startRecording, stopRecording, recorderStart, recorderStop, recorderChunk,
      processAudio, applyTranscript]

lemma ctrlInv_runEvents (s : AppState) (h : CtrlInv s) (evs : List Ev) :
    CtrlInv (runEvents s evs) := by
  induction evs generalizing s with
  | nil => exact h
  | cons e rest ih => exact ih _ (ctrlInv_step s e h)

lemma step_safety (s : AppState) (e : Ev) (h : CtrlInv s) :
    (Act.startCapture ∈ (step s e).2 → s.recorder.streamActive = false) ∧
    (Act.dispatchJob ∈ (step s e).2 → s.processing = false) := by
  obtain ⟨h1, h2⟩ := h
  rcases s with ⟨rec, cont, proc, ⟨sa, fr⟩, st, dest, disp⟩
  rcases e with _ | _ | _ | _ | r <;>
    cases rec <;> cases cont <;> cases proc <;> cases sa <;> (try cases r) <;>
    cases fr <;>
    simp_all [step, onHotkeyPress, onHotkeyRelease, onDoubleTap,
      startRecording, stopRecording, recorderStart, recorderStop, recorderChunk,
      processAudio, applyTranscript]

/-! ## Claim theorems -/

/-- Claim C9: `normalize_hotkey "cmd+shift+space"` returns the canonical
string `"shift+command+space"` (modifiers ordered control, option,
shift, command), and `format_hotkey "shift+command+space"` returns
`"⇧⌘Space"`. -/
theorem c9_normalize_format_example :
    normalize_hotkey "cmd+shift+space" = Except.ok "shift+command+space" ∧
      format_hotkey "shift+command+space" = "⇧⌘Space" :=
  ⟨rfl, rfl⟩

/-- Claim C1 (counterexample): the round-trip property fails as stated.
`"cmd+a"` is accepted by `normalize_hotkey` with canonical form
`"command+a"`, but `format_hotkey` renders it `"⌘A"` without `+`
separators, which `normalize_hotkey` rejects — so
`normalize(format(normalize x))` is an error, not `normalize x`. -/
theorem c1_roundtrip_counterexample :
    normalize_hotkey "cmd+a" = Except.ok "command+a" ∧
      normalize_hotkey (format_hotkey "command+a") =
        Except.error "Unsupported key \x27⌘a\x27 in shortcut." ∧
      normalize_hotkey (format_hotkey "command+a") ≠ normalize_hotkey "cmd+a" :=
  ⟨rfl, rfl, fun hcontra => Except.noConfusion hcontra⟩

/-- Claim C2 (code behaviour at the failing input): stopping a capture
that recorded zero frames (press, then release with no audio chunk)
raises the capture error and dispatches no job, but the code leaves the
`_recording` flag `true` (the except-branch of `_stop_recording` never
resets it) and fires no notification — only the status message is set.
The spec instead requires the state to return to Idle (recording flag
false) with a failure notification. -/
theorem c2_zero_frame_stop_behavior :
    step ((step (initState "fn" none) Ev.press).1) Ev.release =
      ({ recording := true, continuousMode := false, processing := false,
         recorder := { streamActive := false, frames := 0 },
         status := "Recording error: No audio was captured.",
         insertDestination := none, hotkeyDisplay := "fn" },
       [Act.hideIndicator]) :=
  rfl

/-- Claim C3: starting from the initial Idle state, along any serial
event trace the controller never invokes `recorder.start()` while an
input stream is already open, and never spawns a transcription worker
while the processing flag is set. -/
theorem c3_no_double_session_no_double_dispatch (h : String)
    (d : Option (List Char)) (evs : List Ev) (e : Ev) :
    (Act.startCapture ∈ (step (runEvents (initState h d) evs) e).2 →
      (runEvents (initState h d) evs).recorder.streamActive = false) ∧
    (Act.dispatchJob ∈ (step (runEvents (initState h d) evs) e).2 →
      (runEvents (initState h d) evs).processing = false) :=
  step_safety _ e (ctrlInv_runEvents _ (ctrlInv_initState h d) evs)

theorem c3_no_double_session_no_double_dispatch_witness :
    ((runEvents (initState "fn" none) []).recorder.streamActive = false ∧
      Act.startCapture ∈ (step (runEvents (initState "fn" none) []) Ev.press).2) ∧
    ((runEvents (initState "fn" none) [Ev.press, Ev.chunk]).processing = false ∧
      Act.dispatchJob ∈
        (step (runEvents (initState "fn" none) [Ev.press, Ev.chunk]) Ev.release).2) :=
  ⟨⟨(c3_no_double_session_no_double_dispatch "fn" none [] Ev.press).1 (by decide),
    by decide⟩,
   ⟨(c3_no_double_session_no_double_dispatch "fn" none [Ev.press, Ev.chunk] Ev.release).2
      (by decide),
    by decide⟩⟩

/-- Claim C4: in every reachable state whose processing flag is set,
delivering a press, release or double-tap event leaves the whole
controller state unchanged (and performs no action). -/
theorem c4_processing_ignores_hotkey_events (h : String) (d : Option (List Char))
    (evs : List Ev) (hp : (runEvents (initState h d) evs).processing = true) :
    step (runEvents (initState h d) evs) Ev.press = (runEvents (initState h d) evs, []) ∧
    step (runEvents (initState h d) evs) Ev.release = (runEvents (initState h d) evs, []) ∧
    step (runEvents (initState h d) evs) Ev.doubleTap = (runEvents (initState h d) evs, []) := by
  have hinv := ctrlInv_runEvents _ (ctrlInv_initState h d) evs
  obtain ⟨h1, h2⟩ := hinv
  have hrec : (runEvents (initState h d) evs).recording = false := by
    rcases hb : (runEvents (initState h d) evs).recording with _ | _
    · rfl
    · exact absurd ⟨hb, hp⟩ h2
  refine ⟨?_, ?_, ?_⟩ <;>
    simp [step, onHotkeyPress, onHotkeyRelease, onDoubleTap, hp, hrec]

theorem c4_processing_ignores_hotkey_events_witness :
    (runEvents (initState "fn" none) [Ev.press, Ev.chunk, Ev.release]).processing = true ∧
    step (runEvents (initState "fn" none) [Ev.press, Ev.chunk, Ev.release]) Ev.press =
      (runEvents (initState "fn" none) [Ev.press, Ev.chunk, Ev.release], []) :=
  ⟨by decide,
   (c4_processing_ignores_hotkey_events "fn" none [Ev.press, Ev.chunk, Ev.release]
     (by decide)).1⟩

/-- Claim C5: with a double-tap handler registered, a down-edge whose
distance to the recorded last press is at least the window invokes
`on_press` and records its own timestamp; after a release, a second
down-edge strictly inside the window invokes `on_double_tap` and resets
the timestamp to zero, while a second down-edge at or beyond the window
(in particular exactly at it) invokes `on_press` and records its
timestamp. -/
theorem c5_double_tap_window (w t1 tu t2 : ℚ) (s0 : FnMonState)
    (hp : s0.pressed = false) (hfirst : w ≤ t1 - s0.lastPressTime) :
    fnHandle w true s0 true t1 =
      ({ pressed := true, lastPressTime := t1 }, FnOut.press) ∧
    fnHandle w true { pressed := true, lastPressTime := t1 } false tu =
      ({ pressed := false, lastPressTime := t1 }, FnOut.release) ∧
    (t2 - t1 < w →
      fnHandle w true { pressed := false, lastPressTime := t1 } true t2 =
        ({ pressed := true, lastPressTime := 0 }, FnOut.doubleTap)) ∧
    (w ≤ t2 - t1 →
      fnHandle w true { pressed := false, lastPressTime := t1 } true t2 =
        ({ pressed := true, lastPressTime := t2 }, FnOut.press)) := by
  refine ⟨?_, ?_, ?_, ?_⟩
  · simp [fnHandle, hp, not_lt.mpr hfirst]
  · simp [fnHandle]
  · intro hlt
    simp [fnHandle, hlt]
  · intro hge
    simp [fnHandle, not_lt.mpr hge]

theorem c5_double_tap_window_witness :
    fnHandle (3/10) true { pressed := false, lastPressTime := 0 } true 1 =
      ({ pressed := true, lastPressTime := 1 }, FnOut.press) ∧
    fnHandle (3/10) true { pressed := false, lastPressTime := 1 } true (12/10) =
      ({ pressed := true, lastPressTime := 0 }, FnOut.doubleTap) ∧
    fnHandle (3/10) true { pressed := false, lastPressTime := 1 } true (13/10) =
      ({ pressed := true, lastPressTime := 13/10 }, FnOut.press) :=
  ⟨(c5_double_tap_window (3/10) 1 (11/10) (12/10)
      { pressed := false, lastPressTime := 0 } rfl (by norm_num)).1,
   (c5_double_tap_window (3/10) 1 (11/10) (12/10)
      { pressed := false, lastPressTime := 0 } rfl (by norm_num)).2.2.1 (by norm_num),
   (c5_double_tap_window (3/10) 1 (11/10) (13/10)
      { pressed := false, lastPressTime := 0 } rfl (by norm_num)).2.2.2 (by norm_num)⟩

/-- Claim C6: however the transcription worker finishes (backend success
or backend failure), the temporary audio file is deleted exactly once
and the processing flag is cleared. -/
theorem c6_temp_file_deleted_once (s : AppState) (r : Except String (List Char)) :
    (processAudio s r).2.countP isDeleteTempFile = 1 ∧
      (processAudio s r).1.processing = false := by
  cases r with
  | ok t =>
    constructor
    · simp [processAudio, applyTranscript, List.countP_append, List.countP_cons,
        isDeleteTempFile]
    · simp [processAudio]
  | error e =>
    constructor
    · simp [processAudio, List.countP_cons, isDeleteTempFile]
    · simp [processAudio]

/-- Claim C7: a double-tap delivered while continuous mode is on, a
recording session is active (open stream with captured audio) and the
controller is not processing: continuous mode is toggled off, capture is
stopped, and a transcription job is dispatched. -/
theorem c7_double_tap_off_stops_and_dispatches (s : AppState)
    (hc : s.continuousMode = true) (hr : s.recording = true)
    (hp : s.processing = false) (hsa : s.recorder.streamActive = true)
    (hf : s.recorder.frames ≠ 0) :
    (onDoubleTap s).1.continuousMode = false ∧
    (onDoubleTap s).1.recording = false ∧
    (onDoubleTap s).1.processing = true ∧
    (onDoubleTap s).1.recorder.streamActive = false ∧
    Act.dispatchJob ∈ (onDoubleTap s).2 := by
  simp [onDoubleTap, hc, hr, hp, stopRecording, recorderStop, hsa, hf]

theorem c7_double_tap_off_stops_and_dispatches_witness :
    (onDoubleTap (runEvents (initState "fn" none)
        [Ev.doubleTap, Ev.press, Ev.chunk])).1.processing = true ∧
    Act.dispatchJob ∈ (onDoubleTap (runEvents (initState "fn" none)
        [Ev.doubleTap, Ev.press, Ev.chunk])).2 :=
  ⟨(c7_double_tap_off_stops_and_dispatches _ rfl rfl rfl rfl (by decide)).2.2.1,
   (c7_double_tap_off_stops_and_dispatches _ rfl rfl rfl rfl (by decide)).2.2.2.2⟩

/-- Claim C8: with the pressed flag set, an event resets the flag and
invokes `on_release` exactly when it is a key-up whose key matches the
configured primary key (by key code for special keys, by
case-insensitive character otherwise) or a modifier-state change whose
active flags no longer contain the full required mask; every other event
leaves the flag set and invokes nothing. -/
theorem c8_combo_release_characterization (cfg : ComboCfg) (e : ComboEvent) :
    comboStep cfg true e =
      (if specReleaseEvent cfg e then (false, some ComboOut.release)
       else (true, none)) := by
  cases e with
  | keyDown keyCode chars flags => simp [comboStep, specReleaseEvent]
  | keyUp keyCode chars flags =>
    simp only [comboStep, specReleaseEvent, keyMatches, Bool.true_and]
  | flagsChanged flags =>
    simp only [comboStep, specReleaseEvent, modifiersActive, Bool.true_and]

/-- Claim C10: `_apply_transcript` always copies the text to the
clipboard first; the paste keystroke is issued exactly when the
configured destination (lower-cased, defaulting to "paste" when unset or
empty) is "paste"; any other destination value yields clipboard-only
behaviour (no further action, no state change). -/
theorem c10_apply_transcript (dest : Option (List Char)) (text : List Char) :
    (applyTranscript dest text).head? = some (Act.copyClipboard text) ∧
    (Act.pasteKeystroke ∈ applyTranscript dest text ↔
      (insertDestinationOrDefault dest).map Char.toLower = "paste".data) ∧
    ((insertDestinationOrDefault dest).map Char.toLower ≠ "paste".data →
      applyTranscript dest text = [Act.copyClipboard text]) := by
  refine ⟨by simp [applyTranscript], ?_, ?_⟩
  · simp only [applyTranscript]
    split
    · simp_all
    · split <;> simp_all
  · intro hne
    simp only [applyTranscript]
    split
    · simp_all
    · split <;> simp_all

theorem c10_apply_transcript_witness :
    applyTranscript (some "window".data) "hi".data =
      [Act.copyClipboard "hi".data] :=
  (c10_apply_transcript (some "window".data) "hi".data).2.2 (by decide)

/-! ## Character-level lemmas for the round-trip proof -/

lemma char_toNat_ofNat_lt {n : Nat} (h : n < 55296) : (Char.ofNat n).toNat = n := by
  have hv : n.isValidChar := Or.inl h
  simp only [Char.ofNat, dif_pos hv]
  rfl

lemma char_toNat_inj {a b : Char} (h : a.toNat = b.toNat) : a = b :=
  Char.ext (UInt32.toNat.inj h)

lemma char_toLower_toNat (c : Char) :
    c.toLower.toNat = if 65 ≤ c.toNat ∧ c.toNat ≤ 90 then c.toNat + 32 else c.toNat := by
  show (if c.toNat ≥ 65 ∧ c.toNat ≤ 90 then Char.ofNat (c.toNat + 32) else c).toNat = _
  by_cases hc : 65 ≤ c.toNat ∧ c.toNat ≤ 90
  · rw [if_pos hc, if_pos hc]
    exact char_toNat_ofNat_lt (by omega)
  · rw [if_neg hc, if_neg hc]

lemma char_toUpper_toNat (c : Char) :
    c.toUpper.toNat = if 97 ≤ c.toNat ∧ c.toNat ≤ 122 then c.toNat - 32 else c.toNat := by
  show (if c.toNat ≥ 97 ∧ c.toNat ≤ 122 then Char.ofNat (c.toNat - 32) else c).toNat = _
  by_cases hc : 97 ≤ c.toNat ∧ c.toNat ≤ 122
  · rw [if_pos hc, if_pos hc]
    exact char_toNat_ofNat_lt (by omega)
  · rw [if_neg hc, if_neg hc]

lemma char_toLower_fixed_toNat {c : Char} (h : c.toLower = c) :
    ¬(65 ≤ c.toNat ∧ c.toNat ≤ 90) := by
  intro hc
  have ht := char_toLower_toNat c
  rw [h, if_pos hc] at ht
  omega

lemma char_toLower_toLower (c : Char) : c.toLower.toLower = c.toLower := by
  apply char_toNat_inj
  have h1 := char_toLower_toNat c
  have h2 := char_toLower_toNat c.toLower
  by_cases hc : 65 ≤ c.toNat ∧ c.toNat ≤ 90
  · rw [if_pos hc] at h1
    rw [h1, if_neg (by omega)] at h2
    rw [h2, h1]
  · rw [if_neg hc] at h1
    rw [h1, if_neg hc] at h2
    rw [h2, h1]

lemma char_toLower_toUpper {c : Char} (h : c.toLower = c) : c.toUpper.toLower = c := by
  apply char_toNat_inj
  have hup := char_toUpper_toNat c
  have hlo := char_toLower_toNat c.toUpper
  by_cases hc : 97 ≤ c.toNat ∧ c.toNat ≤ 122
  · rw [if_pos hc] at hup
    rw [hup, if_pos (by omega)] at hlo
    rw [hlo]
    omega
  · rw [if_neg hc] at hup
    rw [hup, if_neg (char_toLower_fixed_toNat h)] at hlo
    rw [hlo]

lemma isPySpace_toNat (c : Char) :
    isPySpace c = decide ((9 ≤ c.toNat ∧ c.toNat ≤ 13) ∨ (28 ≤ c.toNat ∧ c.toNat ≤ 32) ∨
      c.toNat = 133 ∨ c.toNat = 160 ∨ c.toNat = 5760 ∨
      (8192 ≤ c.toNat ∧ c.toNat ≤ 8202) ∨ c.toNat = 8232 ∨ c.toNat = 8233 ∨
      c.toNat = 8239 ∨ c.toNat = 8287 ∨ c.toNat = 12288) := rfl

lemma isPySpace_toLower (c : Char) : isPySpace c.toLower = isPySpace c := by
  have ht := char_toLower_toNat c
  simp only [isPySpace_toNat]
  by_cases hc : 65 ≤ c.toNat ∧ c.toNat ≤ 90
  · rw [if_pos hc] at ht
    rw [ht]
    simp only [decide_eq_decide]
    omega
  · rw [if_neg hc] at ht
    rw [ht]

lemma isPySpace_toUpper (c : Char) : isPySpace c.toUpper = isPySpace c := by
  have ht := char_toUpper_toNat c
  simp only [isPySpace_toNat]
  by_cases hc : 97 ≤ c.toNat ∧ c.toNat ≤ 122
  · rw [if_pos hc] at ht
    rw [ht]
    simp only [decide_eq_decide]
    omega
  · rw [if_neg hc] at ht
    rw [ht]

lemma char_toLower_eq_plus {c : Char} (h : c.toLower = '+') : c = '+' := by
  have ht := char_toLower_toNat c
  rw [h] at ht
  have h43 : ('+' : Char).toNat = 43 := rfl
  by_cases hc : 65 ≤ c.toNat ∧ c.toNat ≤ 90
  · rw [if_pos hc] at ht
    omega
  · rw [if_neg hc] at ht
    exact char_toNat_inj (show c.toNat = ('+' : Char).toNat by omega)

/-! ## String-literal data lemmas -/

lemma fn_data : "fn".data = ['f', 'n'] := rfl
lemma space_data : "space".data = ['s', 'p', 'a', 'c', 'e'] := rfl
lemma return_data : "return".data = ['r', 'e', 't', 'u', 'r', 'n'] := rfl
lemma tab_data : "tab".data = ['t', 'a', 'b'] := rfl
lemma escape_data : "escape".data = ['e', 's', 'c', 'a', 'p', 'e'] := rfl
lemma delete_data : "delete".data = ['d', 'e', 'l', 'e', 't', 'e'] := rfl
lemma enter_data : "enter".data = ['e', 'n', 't', 'e', 'r'] := rfl
lemma esc_data : "esc".data = ['e', 's', 'c'] := rfl
lemma spacebar_data : "spacebar".data = ['s', 'p', 'a', 'c', 'e', 'b', 'a', 'r'] := rfl
lemma backspace_data : "backspace".data = ['b', 'a', 'c', 'k', 's', 'p', 'a', 'c', 'e'] := rfl
lemma blank_data : " ".data = [' '] := rfl
lemma control_data : "control".data = ['c', 'o', 'n', 't', 'r', 'o', 'l'] := rfl
lemma option_data : "option".data = ['o', 'p', 't', 'i', 'o', 'n'] := rfl
lemma shift_data : "shift".data = ['s', 'h', 'i', 'f', 't'] := rfl
lemma command_data : "command".data = ['c', 'o', 'm', 'm', 'a', 'n', 'd'] := rfl

/-! ## pyStrip and pySplit lemmas -/

lemma dropWhile_pyStrip (l : List Char) :
    (pyStrip l).dropWhile isPySpace = pyStrip l := by
  have hpy : pyStrip l = List.rdropWhile isPySpace (l.dropWhile isPySpace) := rfl
  rcases hu : pyStrip l with _ | ⟨c, cs⟩
  · simp
  · have hpre : c :: cs <+: l.dropWhile isPySpace := by
      rw [← hu, hpy]
      exact List.rdropWhile_prefix isPySpace (l.dropWhile isPySpace)
    obtain ⟨rest, hrest⟩ := hpre
    have hhead : (l.dropWhile isPySpace).head? = some c := by
      rw [← hrest]
      rfl
    have hc : isPySpace c = false := by
      have h2 := List.head?_dropWhile_not isPySpace l
      rw [hhead] at h2
      exact h2
    simp [hc]

lemma pyStrip_idem (l : List Char) : pyStrip (pyStrip l) = pyStrip l := by
  have hpy : ∀ x : List Char, pyStrip x = List.rdropWhile isPySpace (x.dropWhile isPySpace) :=
    fun x => rfl
  rw [hpy (pyStrip l), dropWhile_pyStrip, hpy l, List.rdropWhile_idempotent]

lemma pyStrip_map_toLower (l : List Char) :
    pyStrip (l.map Char.toLower) = (pyStrip l).map Char.toLower := by
  have hfun : (isPySpace ∘ Char.toLower) = isPySpace := funext isPySpace_toLower
  unfold pyStrip List.rdropWhile
  rw [List.dropWhile_map, hfun, ← List.map_reverse, List.dropWhile_map, hfun,
    ← List.map_reverse]

lemma pyStrip_subset (l : List Char) : pyStrip l ⊆ l := by
  intro a ha
  have h1 := (List.rdropWhile_prefix isPySpace (l.dropWhile isPySpace)).subset ha
  exact (List.dropWhile_suffix isPySpace).subset h1

lemma pySplit_ne_nil (sep : Char) (l : List Char) : pySplit sep l ≠ [] := by
  cases l with
  | nil => simp [pySplit]
  | cons c cs =>
    simp only [pySplit]
    split <;> simp

lemma mem_pySplit_not_mem_sep (sep : Char) :
    ∀ (l : List Char) (p : List Char), p ∈ pySplit sep l → sep ∉ p := by
  intro l
  induction l with
  | nil =>
    intro p hp
    simp only [pySplit, List.mem_singleton] at hp
    simp [hp]
  | cons c cs ih =>
    intro p hp
    simp only [pySplit] at hp
    by_cases hc : c = sep
    · rw [if_pos hc] at hp
      rcases List.mem_cons.mp hp with hp1 | hp2
      · simp [hp1]
      · exact ih p hp2
    · rw [if_neg hc] at hp
      rcases hr : pySplit sep cs with _ | ⟨q, qs⟩
      · exact absurd hr (pySplit_ne_nil sep cs)
      · rw [hr] at hp
        simp only [List.headD_cons, List.tail_cons] at hp
        rcases List.mem_cons.mp hp with hp1 | hp2
        · subst hp1
          intro hmem
          rcases List.mem_cons.mp hmem with h1 | h2
          · exact hc h1.symm
          · exact ih q (by rw [hr]; exact List.mem_cons_self q qs) h2
        · exact ih p (by rw [hr]; exact List.mem_cons_of_mem q hp2)

lemma pySplit_singleton (sep c : Char) (h : c ≠ sep) : pySplit sep [c] = [[c]] := by
  simp [pySplit, h]

lemma partOK_single {c : Char} (h : PartOK [c]) :
    Char.toLower c = c ∧ isPySpace c = false ∧ c ≠ '+' := by
  obtain ⟨_, hplus, hlow, hstrip⟩ := h
  refine ⟨?_, ?_, ?_⟩
  · simpa using hlow
  · rcases hb : isPySpace c with _ | _
    · rfl
    · exfalso
      have hempty : pyStrip [c] = [] := by simp [pyStrip, hb]
      rw [hstrip] at hempty
      exact List.cons_ne_nil c [] hempty
  · intro hce
    subst hce
    exact hplus (List.mem_singleton_self '+')

lemma partsOf_mem_partOK (lowered : List Char) (q : List Char)
    (hq : q ∈ partsOf lowered) : PartOK q := by
  simp only [partsOf, List.mem_filterMap] at hq
  obtain ⟨part, hpart, hq2⟩ := hq
  by_cases hs : pyStrip part = []
  · rw [if_pos hs] at hq2
    exact absurd hq2 (by simp)
  · rw [if_neg hs] at hq2
    have hqeq : q = (pyStrip part).map Char.toLower := by
      injection hq2 with h2
      exact h2.symm
    subst hqeq
    refine ⟨by simpa using hs, ?_, ?_, ?_⟩
    · intro hmem
      rw [List.mem_map] at hmem
      obtain ⟨c, hc1, hc2⟩ := hmem
      have hc3 : c = '+' := char_toLower_eq_plus hc2
      subst hc3
      exact mem_pySplit_not_mem_sep '+' lowered part hpart
        (pyStrip_subset part hc1)
    · rw [List.map_map]
      exact List.map_congr_left fun a _ => char_toLower_toLower a
    · rw [pyStrip_map_toLower, pyStrip_idem]

/-! ## Table lemmas -/

set_option maxHeartbeats 1600000 in
lemma MODIFIER_ALIASES_mem_order {p v : List Char}
    (h : MODIFIER_ALIASES p = some v) : v ∈ MODIFIER_ORDER := by
  unfold MODIFIER_ALIASES at h
  split_ifs at h <;> injection h with h2 <;> subst h2 <;> decide

set_option maxHeartbeats 1600000 in
lemma KEY_ALIASES_mem_named {p v : List Char}
    (h : KEY_ALIASES p = some v) : v ∈ NAMED_KEYS := by
  unfold KEY_ALIASES at h
  split_ifs at h <;> injection h with h2 <;> subst h2 <;> decide

lemma NAMED_KEYS_length {k : List Char} (h : k ∈ NAMED_KEYS) : k.length ≠ 1 := by
  unfold NAMED_KEYS at h
  simp only [List.mem_cons, List.not_mem_nil, or_false] at h
  rcases h with rfl | rfl | rfl | rfl | rfl <;> decide

lemma NAMED_KEYS_display {k : List Char} (h : k ∈ NAMED_KEYS) :
    (KEY_DISPLAY k).isSome = true := by
  unfold NAMED_KEYS at h
  simp only [List.mem_cons, List.not_mem_nil, or_false] at h
  rcases h with rfl | rfl | rfl | rfl | rfl <;> decide

lemma KEY_DISPLAY_isSome_mem {p : List Char} (h : (KEY_DISPLAY p).isSome = true) :
    p ∈ NAMED_KEYS := by
  unfold KEY_DISPLAY at h
  split_ifs at h with h1 h2 h3 h4 h5
  · subst h1; decide
  · subst h2; decide
  · subst h3; decide
  · subst h4; decide
  · subst h5; decide
  · exact absurd h (by simp)

lemma single_not_mem_MODIFIER_ORDER (c : Char) : [c] ∉ MODIFIER_ORDER := by
  intro h
  unfold MODIFIER_ORDER at h
  simp [control_data, option_data, shift_data, command_data] at h

lemma KEY_ALIASES_single {c : Char} (h : c ≠ ' ') : KEY_ALIASES [c] = none := by
  unfold KEY_ALIASES
  simp [enter_data, return_data, space_data, blank_data, spacebar_data,
    tab_data, escape_data, esc_data, delete_data, backspace_data, h]

lemma KEY_DISPLAY_single (c : Char) : KEY_DISPLAY [c] = none := by
  unfold KEY_DISPLAY
  simp [space_data, return_data, tab_data, escape_data, delete_data]

/-! ## The shape of the primary key produced by the parser loop -/

lemma parseParts_ok_key :
    ∀ (parts : List (List Char)) (mods0 : List (List Char)) (key0 : Option (List Char))
      (mods1 : List (List Char)) (k : List Char),
      (∀ p ∈ parts, PartOK p) →
      (∀ k0, key0 = some k0 → KeyOK k0) →
      parseParts parts mods0 key0 = .ok (mods1, k) → KeyOK k := by
  intro parts
  induction parts with
  | nil =>
    intro mods0 key0 mods1 k hparts hkey h
    cases key0 with
    | none => exact absurd h (by simp [parseParts])
    | some k0 =>
      simp only [parseParts, Except.ok.injEq, Prod.mk.injEq] at h
      exact h.2 ▸ hkey k0 rfl
  | cons p rest ih =>
    intro mods0 key0 mods1 k hparts hkey h
    simp only [parseParts] at h
    by_cases hmod : ((MODIFIER_ALIASES p).getD p) ∈ MODIFIER_ORDER
    · rw [if_pos hmod] at h
      exact ih _ _ _ _ (fun q hq => hparts q (List.mem_cons_of_mem _ hq)) hkey h
    · rw [if_neg hmod] at h
      cases key0 with
      | some k0 => exact absurd h (by simp)
      | none =>
        have halias : MODIFIER_ALIASES p = none := by
          cases hma : MODIFIER_ALIASES p with
          | none => rfl
          | some v =>
            rw [hma, Option.getD_some] at hmod
            exact absurd (MODIFIER_ALIASES_mem_order hma) hmod
        rw [halias, Option.getD_none] at h
        cases hka : KEY_ALIASES p with
        | some m =>
          rw [hka, Option.getD_some] at h
          have hm : m ∈ NAMED_KEYS := KEY_ALIASES_mem_named hka
          rw [if_neg (fun hcontra => NAMED_KEYS_length hm hcontra.1)] at h
          rw [if_pos (NAMED_KEYS_display hm)] at h
          exact ih _ _ _ _ (fun q hq => hparts q (List.mem_cons_of_mem _ hq))
            (fun k0 hk0 => by injection hk0 with hk0e; exact hk0e ▸ Or.inl hm) h
        | none =>
          rw [hka, Option.getD_none] at h
          by_cases hlen : p.length = 1 ∧ p.all pyIsPrintable = true
          · rw [if_pos hlen] at h
            obtain ⟨hlen1, hpr⟩ := hlen
            rcases p with _ | ⟨c, _ | ⟨d, tl⟩⟩
            · exact absurd hlen1 (by simp)
            · have hc : KeyOK [c] := by
                refine Or.inr ⟨c, rfl, ?_, halias, hparts [c] (List.mem_cons_self _ _)⟩
                simpa using hpr
              exact ih _ _ _ _ (fun q hq => hparts q (List.mem_cons_of_mem _ hq))
                (fun k0 hk0 => by injection hk0 with hk0e; exact hk0e ▸ hc) h
            · exact absurd hlen1 (by simp)
          · rw [if_neg hlen] at h
            by_cases hdisp : (KEY_DISPLAY p).isSome = true
            · rw [if_pos hdisp] at h
              exact ih _ _ _ _ (fun q hq => hparts q (List.mem_cons_of_mem _ hq))
                (fun k0 hk0 => by
                  injection hk0 with hk0e
                  exact hk0e ▸ Or.inl (KEY_DISPLAY_isSome_mem hdisp)) h
            · rw [if_neg hdisp] at h
              exact absurd h (by simp)

/-! ## Canonical-form shape and the amended round trip -/

lemma normalizeChars_ok_shape {raw s : List Char} (h : normalizeChars raw = .ok s) :
    s = "fn".data ∨
      ∃ (mods : List (List Char)) (k : List Char), KeyOK k ∧
        s = List.intercalate ['+']
          (MODIFIER_ORDER.filter (fun m => mods.contains m) ++ [k]) := by
  simp only [normalizeChars] at h
  by_cases h1 : pyStrip raw = []
  · rw [if_pos h1] at h
    exact absurd h (by simp)
  · rw [if_neg h1] at h
    by_cases h2 : (pyStrip raw).map Char.toLower = "fn".data
    · rw [if_pos h2] at h
      left
      injection h with h2e
      exact h2e.symm
    · rw [if_neg h2] at h
      by_cases h3 : partsOf ((pyStrip raw).map Char.toLower) = []
      · rw [if_pos h3] at h
        exact absurd h (by simp)
      · rw [if_neg h3] at h
        by_cases h4 : "fn".data ∈ partsOf ((pyStrip raw).map Char.toLower)
        · rw [if_pos h4] at h
          by_cases h5 : (partsOf ((pyStrip raw).map Char.toLower)).length > 1
          · rw [if_pos h5] at h
            exact absurd h (by simp)
          · rw [if_neg h5] at h
            left
            injection h with h5e
            exact h5e.symm
        · rw [if_neg h4] at h
          cases hp : parseParts (partsOf ((pyStrip raw).map Char.toLower)) [] none with
          | error e =>
            rw [hp] at h
            exact absurd h (by simp)
          | ok pr =>
            obtain ⟨mods, k⟩ := pr
            rw [hp] at h
            right
            refine ⟨mods, k, ?_, ?_⟩
            · exact parseParts_ok_key _ [] none mods k
                (fun q hq => partsOf_mem_partOK _ q hq)
                (fun k0 hk0 => Option.noConfusion hk0) hp
            · injection h with he
              exact he.symm

lemma plus_mem_intercalate_cons_cons (a b : List Char) (l : List (List Char)) :
    '+' ∈ List.intercalate ['+'] (a :: b :: l) := by
  simp [List.intercalate]

lemma intercalate_single_chunk (a : List Char) : List.intercalate ['+'] [a] = a := by
  simp [List.intercalate]

lemma formatChars_single {c : Char} (hplus : c ≠ '+') :
    formatChars [c] = [c.toUpper] := by
  have hfn : ([c] : List Char) ≠ "fn".data := by simp [fn_data]
  unfold formatChars
  rw [if_neg hfn, pySplit_singleton '+' c hplus]
  simp [KEY_DISPLAY_single]

lemma normalizeChars_upper_single {c : Char} (hpr : pyIsPrintable c = true)
    (hmod : MODIFIER_ALIASES [c] = none) (hlow : Char.toLower c = c)
    (hsp : isPySpace c = false) (hplus : c ≠ '+') :
    normalizeChars [c.toUpper] = .ok [c] := by
  have hspU : isPySpace c.toUpper = false := by rw [isPySpace_toUpper]; exact hsp
  have hstripU : pyStrip [c.toUpper] = [c.toUpper] := by
    simp [pyStrip, hspU, List.rdropWhile_singleton]
  have hlowU : ([c.toUpper] : List Char).map Char.toLower = [c] := by
    simp [char_toLower_toUpper hlow]
  have hUfn : ([c.toUpper] : List Char) ≠ [] := by simp
  have hcfn : ([c] : List Char) ≠ "fn".data := by simp [fn_data]
  have hspace : c ≠ ' ' := by
    intro hce
    rw [hce] at hsp
    exact absurd hsp (by decide)
  have hstripc : pyStrip [c] = [c] := by
    simp [pyStrip, hsp, List.rdropWhile_singleton]
  have hparts : partsOf [c] = [[c]] := by
    unfold partsOf
    rw [pySplit_singleton '+' c hplus]
    simp [hstripc, hlow]
  have hpp : parseParts [[c]] [] none = .ok ([], [c]) := by
    simp only [parseParts, hmod, Option.getD_none]
    rw [if_neg (single_not_mem_MODIFIER_ORDER c)]
    rw [KEY_ALIASES_single hspace]
    simp only [Option.getD_none]
    rw [if_pos ⟨rfl, by simp [hpr]⟩]
  simp only [normalizeChars, hstripU]
  rw [if_neg hUfn, hlowU, if_neg hcfn, hparts]
  rw [if_neg (show ([[c]] : List (List Char)) ≠ [] by simp)]
  rw [if_neg (show "fn".data ∉ ([[c]] : List (List Char)) by simp [fn_data])]
  rw [hpp]
  have hfilter : MODIFIER_ORDER.filter (fun m => List.contains ([] : List (List Char)) m) = [] := by
    simp [List.filter_eq_nil_iff]
  show Except.ok (List.intercalate ['+']
      (MODIFIER_ORDER.filter (fun m => List.contains ([] : List (List Char)) m) ++ [[c]])) =
    Except.ok [c]
  rw [hfilter, List.nil_append, intercalate_single_chunk]

lemma normalizeChars_roundtrip_modfree {raw sc : List Char}
    (h : normalizeChars raw = .ok sc) (hnm : '+' ∉ sc) :
    normalizeChars (formatChars sc) = .ok sc := by
  rcases normalizeChars_ok_shape h with hfn | ⟨mods, k, hk, hs⟩
  · subst hfn
    rfl
  · rcases hF : MODIFIER_ORDER.filter (fun m => mods.contains m) with _ | ⟨m, ms⟩
    · rw [hF, List.nil_append, intercalate_single_chunk] at hs
      subst hs
      rcases hk with hnamed | ⟨c, rfl, hpr, hmodAlias, hpart⟩
      · unfold NAMED_KEYS at hnamed
        simp only [List.mem_cons, List.not_mem_nil, or_false] at hnamed
        rcases hnamed with rfl | rfl | rfl | rfl | rfl <;> rfl
      · obtain ⟨hlow, hsp, hplus⟩ := partOK_single hpart
        rw [formatChars_single hplus]
        exact normalizeChars_upper_single hpr hmodAlias hlow hsp hplus
    · exfalso
      rw [hF] at hs
      apply hnm
      rw [hs]
      rcases hms : ms ++ [k] with _ | ⟨b, l⟩
      · exact absurd hms (by simp)
      · rw [List.cons_append, hms]
        exact plus_mem_intercalate_cons_cons m b l

/-- Claim C1 (amended): the round trip holds for the modifier-free
ASCII hotkeys.  For every ASCII raw string `x` accepted by
`normalize_hotkey` whose canonical form contains no `+` (i.e. is `fn` or
a bare primary key), `normalize_hotkey (format_hotkey (normalize x))`
returns the canonical form again.  With modifiers the formatted string
is rejected because `format_hotkey` emits no `+` separators (see the
counterexample); off ASCII the program additionally breaks the round
trip through Unicode case mapping (upper of `ß` is `SS`, which
`normalize_hotkey` rejects, and `ı` re-normalizes to `i`), behaviour the
embedding does not model, so the theorem is scoped by the ASCII
hypothesis to the domain where the embedding's case mapping, whitespace
and printability are exact. -/
theorem c1_roundtrip_modifier_free (x s : String)
    (hascii : ∀ c ∈ x.data, c.toNat < 128)
    (hx : normalize_hotkey x = Except.ok s) (hnm : '+' ∉ s.data) :
    normalize_hotkey (format_hotkey s) = Except.ok s := by
  obtain ⟨sd⟩ := s
  have hx2 : normalizeChars x.data = .ok sd := by
    cases hcase : normalizeChars x.data with
    | error e =>
      rw [normalize_hotkey, hcase] at hx
      exact absurd hx (by simp [Except.map])
    | ok t =>
      rw [normalize_hotkey, hcase] at hx
      simp only [Except.map] at hx
      injection hx with hx3
      injection hx3 with hx4
      rw [hx4]
  have hmain := normalizeChars_roundtrip_modfree hx2 hnm
  show (normalizeChars (formatChars sd)).map String.mk = Except.ok (String.mk sd)
  rw [hmain]
  rfl

theorem c1_roundtrip_modifier_free_witness :
    normalize_hotkey "Q" = Except.ok "q" ∧ '+' ∉ ("q" : String).data ∧
      normalize_hotkey (format_hotkey "q") = Except.ok "q" :=
  ⟨rfl, by decide, c1_roundtrip_modifier_free "Q" "q" (by decide) rfl (by decide)⟩
